import Mathlib

/-!
Shallow embedding of the SQL Projection Guard of this repository:
the forbidden-column detector (`containsForbiddenColumns`), the projection
rewriter (`sanitizeSQL`) — both in their two copies, the generation tool
(src/mastra/tools/sql-generation-tool.ts) and the execution tool — and the
execution gate (`sqlExecutionTool.execute`).

Strings are modelled as `List Char` internally (wrapped in `String` at the
API).  The JavaScript regular expressions of the source are embedded as
explicit backtracking matchers with the engine's leftmost / greedy / lazy
semantics; `[^from]` is a character class, so it excludes the individual
letters f, r, o, m (case-insensitively, because of the `i` flag), which is
load-bearing for several claims below.  JavaScript `toLowerCase` is modelled
per-character by `Char.toLower` (ASCII), and `\s` by the JS whitespace set.
-/

namespace SqlGuard

/-- JS `\s` (whitespace) character set, as used by `\s+` in the source regexes
and by `String.prototype.trim`. -/
def isJsWs (c : Char) : Bool :=
  c == ' ' || c == '\t' || c == '\n' || c == '\r' ||
  c.val == 11 || c.val == 12 || c.val == 0xA0 || c.val == 0x1680 ||
  (0x2000 ≤ c.val && c.val ≤ 0x200A) || c.val == 0x2028 || c.val == 0x2029 ||
  c.val == 0x202F || c.val == 0x205F || c.val == 0x3000 || c.val == 0xFEFF

/-- JS `\w` word character: `[A-Za-z0-9_]`. -/
def isWordChar (c : Char) : Bool :=
  ('a' ≤ c && c ≤ 'z') || ('A' ≤ c && c ≤ 'Z') || ('0' ≤ c && c ≤ '9') || c == '_'

/-- Character matched by the class `[from]` under the `i` flag: one of the
letters f, r, o, m in either case. -/
def classFROM (c : Char) : Bool :=
  c.toLower == 'f' || c.toLower == 'r' || c.toLower == 'o' || c.toLower == 'm'

/-- Character matched by `[\w.]` (table-qualifier characters). -/
def isWordDot (c : Char) : Bool := isWordChar c || c == '.'

/-- The apostrophe character (singled out to keep it out of literals). -/
def squote : Char := Char.ofNat 39

/-- The dollar character, special in JS replacement strings. -/
def dollarChar : Char := '$'

/-- Quote characters stripped by `.replace(/^["']|["']$/g, '')`. -/
def isQuoteChar (c : Char) : Bool := c == '"' || c == squote

/-- Case-insensitive "text begins with pattern" (per-char `toLower`). -/
def ciStarts : List Char → List Char → Bool
  | [], _ => true
  | _ :: _, [] => false
  | p :: ps, t :: ts => p.toLower == t.toLower && ciStarts ps ts

/-- Case-sensitive "text begins with pattern". -/
def startsWithList : List Char → List Char → Bool
  | [], _ => true
  | _ :: _, [] => false
  | p :: ps, t :: ts => p == t && startsWithList ps ts

/-- Substring test (JS `String.prototype.includes`). -/
def containsSub (pat : List Char) : List Char → Bool
  | [] => pat.isEmpty
  | c :: cs => startsWithList pat (c :: cs) || containsSub pat cs

/-- JS `String.prototype.trim` on a char list. -/
def jsTrimList (l : List Char) : List Char :=
  ((l.dropWhile isJsWs).reverse.dropWhile isJsWs).reverse

/-- Match `\s+from` (the tail of the select-clause regex): a greedy
whitespace run followed by the literal `from` (case-insensitive).  Because
`f` is not whitespace, the greedy `\s+` needs no backtracking here.  Returns
`(consumed, rest)` with `consumed ++ rest` equal to the input. -/
def matchSFrom (l : List Char) : Option (List Char × List Char) :=
  let ws := l.takeWhile isJsWs
  let t := l.dropWhile isJsWs
  if ws.isEmpty then none
  else if ciStarts ("from".data) t then some (ws ++ t.take 4, t.drop 4)
  else none

/-- Lazy matching of `([^from]+?)\s+from`: the capture grows one character
at a time (each character must not be one of f/r/o/m, case-insensitively),
and after each extension the engine first tries to finish with `\s+from`.
Returns `(capture, sfrom-part, rest)` with the three pieces concatenating to
the input. -/
def lazyCap : List Char → Option (List Char × List Char × List Char)
  | [] => none
  | c :: cs =>
    if classFROM c then none
    else
      match matchSFrom cs with
      | some (mid, rest) => some ([c], mid, rest)
      | none =>
        match lazyCap cs with
        | some (cap, mid, rest) => some (c :: cap, mid, rest)
        | none => none

/-- Backtracking over the first `\s+` of `select\s+([^from]+?)\s+from`: the
greedy run tries its maximal length first and shrinks on failure.  `fuel` is
the length currently tried; the caller passes the full whitespace-run length.
Returns `(ws, capture, sfrom-part, rest)`, concatenating to the input. -/
def tryWsCap (l : List Char) : Nat → Option (List Char × List Char × List Char × List Char)
  | 0 => none
  | Nat.succ a =>
    match lazyCap (l.drop (a + 1)) with
    | some (cap, mid, rest) => some (l.take (a + 1), cap, mid, rest)
    | none => tryWsCap l a

/-- Try to match `select\s+([^from]+?)\s+from` (case-insensitively) at the
head of the input.  Returns `(span, capture, rest)` where `span` is the full
matched text and `span ++ rest` is the input. -/
def matchAt (l : List Char) : Option (List Char × List Char × List Char) :=
  if ciStarts ("select".data) l then
    let t := l.drop 6
    match tryWsCap t (t.takeWhile isJsWs).length with
    | some (ws, cap, mid, rest) => some (l.take 6 ++ ws ++ cap ++ mid, cap, rest)
    | none => none
  else none

/-- Leftmost match of `/select\s+([^from]+?)\s+from/i` over the whole input
(JS advances one character after each failed start position).  Returns
`(before, span, capture, rest)` with `before ++ span ++ rest` the input. -/
def findSF : List Char → Option (List Char × List Char × List Char × List Char)
  | [] => none
  | c :: cs =>
    match matchAt (c :: cs) with
    | some (span, cap, rest) => some ([], span, cap, rest)
    | none =>
      match findSF cs with
      | some (pre, span, cap, rest) => some (c :: pre, span, cap, rest)
      | none => none

/-- Leftmost match of `/from\s+([\w.]+)/i`, returning the captured table
identifier.  Whitespace and `[\w.]` are disjoint, so both greedy pieces are
determined once the literal `from` matches. -/
def findFromTable : List Char → Option (List Char)
  | [] => none
  | c :: cs =>
    if ciStarts ("from".data) (c :: cs) then
      let t := (c :: cs).drop 4
      let ws := t.takeWhile isJsWs
      let u := t.drop ws.length
      let cap := u.takeWhile isWordDot
      if ws.isEmpty || cap.isEmpty then findFromTable cs else some cap
    else findFromTable cs

/-- The denylist of the source (both tool files declare the same list). -/
def FORBIDDEN_COLUMNS : List String :=
  ["content", "body", "full_text", "html", "raw_content"]

def FORBIDDENL : List (List Char) := FORBIDDEN_COLUMNS.map String.data

/-- Fallback projection of the execution tool (note `symbol`, singular). -/
def ALLOWED_COLUMNS_NEWS : List String :=
  ["id", "title", "slug", "symbol", "url", "published_at"]

/-- Fallback projection of the generation tool (note `symbols`, plural). -/
def ALLOWED_COLUMNS_GEN : List String :=
  ["id", "title", "slug", "symbols", "url", "published_at"]

def NEWS_TABLE_NAME : String := "news"

/-- Whole-word test `new RegExp("\\b" + col + "\\b", "i").test(clause)`,
specialised to patterns made only of word characters (true of every name in
`FORBIDDEN_COLUMNS`): an occurrence counts when the character before it (if
any) and the character after it (if any) are not word characters.
`prev` is the character just before the current suffix. -/
def wordTestGo (pat : List Char) : Option Char → List Char → Bool
  | prev, [] =>
    (match prev with | none => true | some c => !isWordChar c) &&
      ciStarts pat [] && true
  | prev, c :: cs =>
    ((match prev with | none => true | some d => !isWordChar d) &&
      ciStarts pat (c :: cs) &&
      (match (c :: cs).drop pat.length with
       | [] => true
       | d :: _ => !isWordChar d)) ||
    wordTestGo pat (some c) cs

def wordTest (pat clause : List Char) : Bool := wordTestGo pat none clause

/-- The detector's report shape. -/
structure ViolationReport where
  hasForbidden : Bool
  forbiddenColumns : List String
deriving DecidableEq, Repr

/-- Forbidden names found in a captured SELECT clause, in declaration order
(the `forEach` / `push` loop of the source). -/
def detectFoundIn (cap : List Char) : List (List Char) :=
  FORBIDDENL.filter (fun col => wordTest col cap)

/-- `containsForbiddenColumns` of src/mastra/tools/sql-generation-tool.ts:
no table scoping; the select clause is extracted from the lowercased query. -/
def containsForbiddenColumnsGen (sql : String) : ViolationReport :=
  let lower := sql.data.map Char.toLower
  let found :=
    match findSF lower with
    | some (_, _, cap, _) => detectFoundIn cap
    | none => []
  { hasForbidden := !found.isEmpty, forbiddenColumns := found.map String.mk }

/-- The execution tool's guarded-table test: the first `from <identifier>`
capture (on the lowercased query) contains the substring `news`. -/
def newsTableTarget (sql : String) : Bool :=
  match findFromTable (sql.data.map Char.toLower) with
  | some cap => containsSub (NEWS_TABLE_NAME.data) cap
  | none => false

/-- `containsForbiddenColumns` of the execution tool: scoped to queries
targeting the news table. -/
def containsForbiddenColumnsNews (sql : String) : ViolationReport :=
  let lower := sql.data.map Char.toLower
  let found :=
    if newsTableTarget sql then
      match findSF lower with
      | some (_, _, cap, _) => detectFoundIn cap
      | none => []
    else []
  { hasForbidden := !found.isEmpty, forbiddenColumns := found.map String.mk }

/-- Last index of a dot inside a char list. -/
def lastDotIdx (l : List Char) : Option Nat :=
  ((l.enum.filter (fun x => x.2 == '.')).getLast?).map (·.1)

/-- `.replace(/^[\w.]+\./, '')`: the greedy anchored match removes up to the
last dot of the leading `[\w.]`-run, provided at least one character comes
before that dot. -/
def stripTableQualifier (l : List Char) : List Char :=
  let run := l.takeWhile isWordDot
  match lastDotIdx run with
  | some p => if 1 ≤ p then l.drop (p + 1) else l
  | none => l

/-- `.replace(/^["']|["']$/g, '')`: drop one leading quote character and one
trailing quote character (the trailing one only when it is a different
position than the leading one). -/
def stripQuotes : List Char → List Char
  | [] => []
  | [c] => if isQuoteChar c then [] else [c]
  | c :: cs =>
    let l1 := if isQuoteChar c then cs else c :: cs
    match cs.getLast? with
    | some d => if isQuoteChar d then l1.dropLast else l1
    | none => l1

/-- Normalisation applied to each projection expression before the denylist
test: lowercase, strip a table/alias qualifier, strip surrounding quotes,
trim. -/
def normalizeCol (col : List Char) : List Char :=
  jsTrimList (stripQuotes (stripTableQualifier (col.map Char.toLower)))

/-- JS `String.prototype.split(',')`: split on every comma, keeping empty
pieces; never returns an empty list. -/
def splitComma : List Char → List (List Char)
  | [] => [[]]
  | c :: rest =>
    let gs := splitComma rest
    if c == ',' then [] :: gs
    else
      match gs with
      | [] => [[c]]
      | g :: tl => (c :: g) :: tl

/-- Expansion of a JS replacement string for a regex with no capture groups
(`/select\s+[^from]+?\s+from/i` has none): `$$` is a literal dollar, `$&` the
matched span, a dollar before a backtick the text before the match, a dollar
before an apostrophe the text after it; anything else after `$` is literal. -/
def expandRepl (matched before after : List Char) : List Char → List Char
  | [] => []
  | [c] => [c]
  | c :: d :: rest =>
    if c == dollarChar then
      if d == dollarChar then dollarChar :: expandRepl matched before after rest
      else if d == '&' then matched ++ expandRepl matched before after rest
      else if d == Char.ofNat 96 then before ++ expandRepl matched before after rest
      else if d == squote then after ++ expandRepl matched before after rest
      else c :: expandRepl matched before after (d :: rest)
    else c :: expandRepl matched before after (d :: rest)

/-- The replacement template `SELECT ${sanitizedSelect} FROM` built from the
kept (or fallback) columns. -/
def sanitizeTemplate (allowed : List String) (cap : List Char) : List Char :=
  let columns := (splitComma cap).map jsTrimList
  let kept := columns.filter (fun col => !(FORBIDDENL.contains (normalizeCol col)))
  let finalCols := if kept.isEmpty then allowed.map String.data else kept
  ("SELECT ".data) ++ (List.intercalate (", ".data) finalCols) ++ (" FROM".data)

/-- `sanitizeSQL`, parameterised by the fallback column list (the only
difference between the two copies).  The source matches the same regex twice
(once for the capture, once inside `replace`); on the same subject this
yields the same span, so one `findSF` models both. -/
def sanitizeCore (allowed : List String) (sql : String) : String :=
  match findSF sql.data with
  | none => sql
  | some (pre, span, cap, rest) =>
    String.mk (pre ++ expandRepl span pre rest (sanitizeTemplate allowed cap) ++ rest)

/-- `sanitizeSQL` of the execution tool. -/
def sanitizeSQLNews (sql : String) : String := sanitizeCore ALLOWED_COLUMNS_NEWS sql

/-- `sanitizeSQL` of src/mastra/tools/sql-generation-tool.ts. -/
def sanitizeSQLGen (sql : String) : String := sanitizeCore ALLOWED_COLUMNS_GEN sql

/-! ## The execution gate (`sqlExecutionTool.execute`)

The tool's `execute` is async and does I/O; it is embedded as a pure
function over its decision inputs: the optional `connectionString` argument,
the optional `NEWS_DATABASE_URL` environment value, the query, the outcome of
`client.connect()` and the database's behaviour `dbRun` on a submitted query
(rows or an error message).  A raised exception that escapes `execute` is
`Except.error`; the tagged result object is `Except.ok`.  Alongside the
result, the embedding returns the trace of I/O events (connect attempt,
query submissions, the `finally` disconnect), which the claims about I/O
ordering quantify over.  `console.*` logging is omitted; fields absent from
the JS result object are modelled as `none` / `[]` / `0`. -/

/-- Connection-establishment timeout (ms) from `createDatabaseConnection`. -/
def CONNECTION_TIMEOUT_MS : Nat := 30000

/-- Statement timeout (ms) from `createDatabaseConnection`. -/
def STATEMENT_TIMEOUT_MS : Nat := 60000

inductive Ev where
  | connect : Ev
  | submit : String → Ev
  | disconnect : Ev
deriving DecidableEq, Repr

structure ExecResult where
  success : Bool
  data : List String
  rowCount : Nat
  executedQuery : String
  warning : Option String
  error : Option String
deriving DecidableEq, Repr

/-- JS truthiness of `connectionString || process.env.NEWS_DATABASE_URL`
(`undefined` and the empty string are falsy). -/
def truthyStr : Option String → Bool
  | none => false
  | some s => !s.isEmpty

def resolveDbUrl (connStr envUrl : Option String) : Option String :=
  if truthyStr connStr then connStr else envUrl

/-- `query.trim().toLowerCase().startsWith('select')`. -/
def statementAllowed (query : String) : Bool :=
  startsWithList ("select".data) ((jsTrimList query.data).map Char.toLower)

/-- `sqlExecutionTool.execute`.  The missing-configuration throw happens
before the `try`, so it escapes as `Except.error`; every throw inside the
`try` (connect failure, the statement-type rule, `executeQuery` failures —
the latter wrapped as `Failed to execute query: ...`) is converted by the
`catch` into a tagged result with `success := false`.  The `finally`
releases the connection on every path inside the `try`. -/
def sqlExecutionToolExecute (connStr envUrl : Option String) (query : String)
    (connectRes : Except String Unit)
    (dbRun : String → Except String (List String)) :
    Except String ExecResult × List Ev :=
  if truthyStr (resolveDbUrl connStr envUrl) then
    match connectRes with
    | Except.error e =>
      (Except.ok { success := false, data := [], rowCount := 0, executedQuery := query,
                   warning := none, error := some e },
       [Ev.connect, Ev.disconnect])
    | Except.ok _ =>
      if statementAllowed query then
        if (containsForbiddenColumnsNews query).hasForbidden then
          match dbRun (sanitizeSQLNews query) with
          | Except.ok rows =>
            (Except.ok { success := true, data := rows, rowCount := rows.length,
                         executedQuery := sanitizeSQLNews query,
                         warning := some ("Forbidden columns (" ++
                           String.intercalate ", " (containsForbiddenColumnsNews query).forbiddenColumns ++
                           ") were automatically removed from the query."),
                         error := none },
             [Ev.connect, Ev.submit (sanitizeSQLNews query), Ev.disconnect])
          | Except.error e =>
            (Except.ok { success := false, data := [], rowCount := 0, executedQuery := query,
                         warning := none, error := some ("Failed to execute query: " ++ e) },
             [Ev.connect, Ev.submit (sanitizeSQLNews query), Ev.disconnect])
        else
          match dbRun query with
          | Except.ok rows =>
            (Except.ok { success := true, data := rows, rowCount := rows.length,
                         executedQuery := query, warning := none, error := none },
             [Ev.connect, Ev.submit query, Ev.disconnect])
          | Except.error e =>
            (Except.ok { success := false, data := [], rowCount := 0, executedQuery := query,
                         warning := none, error := some ("Failed to execute query: " ++ e) },
             [Ev.connect, Ev.submit query, Ev.disconnect])
      else
        (Except.ok { success := false, data := [], rowCount := 0, executedQuery := query,
                     warning := none,
                     error := some "Only SELECT queries are allowed for security reasons" },
         [Ev.connect, Ev.disconnect])
  else
    (Except.error "No connection string provided and NEWS_DATABASE_URL is not set in environment variables",
     [])

/-! ## Helper lemmas -/

theorem string_mk_data : ∀ s : String, String.mk s.data = s
  | ⟨_⟩ => rfl

theorem filter_nil_of_none {α : Type} (p : α → Bool)
    (l : List α) (h : ∀ a ∈ l, p a = false) : l.filter p = [] := by
  rw [List.filter_eq_nil_iff]; simpa using h

theorem filter_self_of_all {α : Type} (p : α → Bool)
    (l : List α) (h : ∀ a ∈ l, p a = true) : l.filter p = l := by
  rw [List.filter_eq_self]; simpa using h

/-- `matchSFrom` consumes an initial segment of its input. -/
theorem matchSFrom_decomp (l mid rest : List Char)
    (h : matchSFrom l = some (mid, rest)) : l = mid ++ rest := by
  unfold matchSFrom at h
  by_cases hws : (l.takeWhile isJsWs).isEmpty
  · simp [hws] at h
  · simp only [hws, if_false, Bool.false_eq_true] at h
    by_cases hf : ciStarts ("from".data) (l.dropWhile isJsWs)
    · simp only [hf, if_true] at h
      simp only [Option.some.injEq, Prod.mk.injEq] at h
      obtain ⟨h1, h2⟩ := h
      subst h1; subst h2
      conv_lhs => rw [← List.takeWhile_append_dropWhile (p := isJsWs) (l := l)]
      rw [List.append_assoc, List.take_append_drop]
    · simp [hf] at h

/-- The `lazyCap` pieces concatenate back to the input, and every character
of the capture fails the `[from]` class. -/
theorem lazyCap_spec : ∀ l cap mid rest,
    lazyCap l = some (cap, mid, rest) →
    l = cap ++ mid ++ rest ∧ ∀ c ∈ cap, classFROM c = false := by
  intro l
  induction l with
  | nil => intro cap mid rest h; simp [lazyCap] at h
  | cons a t ih =>
    intro cap mid rest h
    unfold lazyCap at h
    by_cases hcl : classFROM a
    · simp [hcl] at h
    · simp only [hcl, Bool.false_eq_true, if_false] at h
      cases hm : matchSFrom t with
      | some pr =>
        obtain ⟨m, r⟩ := pr
        rw [hm] at h
        simp only [Option.some.injEq, Prod.mk.injEq] at h
        obtain ⟨h1, h2, h3⟩ := h
        subst h1; subst h2; subst h3
        refine ⟨?_, ?_⟩
        · have := matchSFrom_decomp t m r hm
          simp [this]
        · intro c hc
          simp at hc; subst hc
          simpa using hcl
      | none =>
        rw [hm] at h
        cases hr : lazyCap t with
        | some tr =>
          obtain ⟨cap', mid', rest'⟩ := tr
          rw [hr] at h
          simp only [Option.some.injEq, Prod.mk.injEq] at h
          obtain ⟨h1, h2, h3⟩ := h
          subst h1; subst h2; subst h3
          obtain ⟨hd, hcl'⟩ := ih cap' mid' rest' hr
          refine ⟨by simp [hd], ?_⟩
          intro c hc
          rcases List.mem_cons.mp hc with hc | hc
          · subst hc; simpa using hcl
          · exact hcl' c hc
        | none => rw [hr] at h; exact absurd h (by simp)

/-- Same decomposition and capture invariant for the whitespace backtracking
wrapper. -/
theorem tryWsCap_spec : ∀ n l ws cap mid rest,
    tryWsCap l n = some (ws, cap, mid, rest) →
    l = ws ++ cap ++ mid ++ rest ∧ ∀ c ∈ cap, classFROM c = false := by
  intro n
  induction n with
  | zero => intro l ws cap mid rest h; simp [tryWsCap] at h
  | succ a ih =>
    intro l ws cap mid rest h
    unfold tryWsCap at h
    cases hl : lazyCap (l.drop (a + 1)) with
    | some tr =>
      obtain ⟨cap', mid', rest'⟩ := tr
      rw [hl] at h
      simp only [Option.some.injEq, Prod.mk.injEq] at h
      obtain ⟨h1, h2, h3, h4⟩ := h
      subst h1; subst h2; subst h3; subst h4
      obtain ⟨hd, hcl⟩ := lazyCap_spec _ _ _ _ hl
      constructor
      · conv_lhs => rw [← List.take_append_drop (a + 1) l]
        rw [hd]; simp
      · exact hcl
    | none => rw [hl] at h; exact ih l ws cap mid rest h

/-- `matchAt` matches an initial span of its input; the capture avoids the
`[from]` class. -/
theorem matchAt_spec (l span cap rest : List Char)
    (h : matchAt l = some (span, cap, rest)) :
    l = span ++ rest ∧ ∀ c ∈ cap, classFROM c = false := by
  unfold matchAt at h
  by_cases hs : ciStarts ("select".data) l
  · simp only [hs, if_true] at h
    cases ht : tryWsCap (l.drop 6) ((l.drop 6).takeWhile isJsWs).length with
    | some tr =>
      obtain ⟨ws, cap', mid', rest'⟩ := tr
      rw [ht] at h
      simp only [Option.some.injEq, Prod.mk.injEq] at h
      obtain ⟨h1, h2, h3⟩ := h
      subst h1; subst h2; subst h3
      obtain ⟨hd, hcl⟩ := tryWsCap_spec _ _ _ _ _ _ ht
      constructor
      · conv_lhs => rw [← List.take_append_drop 6 l]
        rw [hd]; simp
      · exact hcl
    | none => rw [ht] at h; exact absurd h (by simp)
  · simp [hs] at h

/-- The leftmost `select ... from` match decomposes the input, and its
capture contains no f/r/o/m character. -/
theorem findSF_spec : ∀ l pre span cap rest,
    findSF l = some (pre, span, cap, rest) →
    l = pre ++ span ++ rest ∧ ∀ c ∈ cap, classFROM c = false := by
  intro l
  induction l with
  | nil => intro pre span cap rest h; simp [findSF] at h
  | cons a t ih =>
    intro pre span cap rest h
    unfold findSF at h
    cases hm : matchAt (a :: t) with
    | some tr =>
      obtain ⟨span', cap', rest'⟩ := tr
      rw [hm] at h
      simp only [Option.some.injEq, Prod.mk.injEq] at h
      obtain ⟨h1, h2, h3, h4⟩ := h
      subst h1; subst h2; subst h3; subst h4
      obtain ⟨hd, hcl⟩ := matchAt_spec _ _ _ _ hm
      exact ⟨by simpa using hd, hcl⟩
    | none =>
      rw [hm] at h
      cases hr : findSF t with
      | some tr =>
        obtain ⟨pre', span', cap', rest'⟩ := tr
        rw [hr] at h
        simp only [Option.some.injEq, Prod.mk.injEq] at h
        obtain ⟨h1, h2, h3, h4⟩ := h
        subst h1; subst h2; subst h3; subst h4
        obtain ⟨hd, hcl⟩ := ih pre' span' cap' rest' hr
        exact ⟨by simp [hd], hcl⟩
      | none => rw [hr] at h; exact absurd h (by simp)

/-- A pattern containing an f/r/o/m letter cannot be a case-insensitive
initial segment of a text free of those letters. -/
theorem ciStarts_false_of_clean : ∀ pat text : List Char,
    (∃ p ∈ pat, classFROM p = true) → (∀ t ∈ text, classFROM t = false) →
    ciStarts pat text = false := by
  intro pat
  induction pat with
  | nil => intro text hp _; simp at hp
  | cons p ps ih =>
    intro text hp ht
    cases text with
    | nil => rfl
    | cons t ts =>
      obtain ⟨q, hq, hql⟩ := hp
      rcases List.mem_cons.mp hq with hq | hq
      · subst hq
        have htc := ht t (List.mem_cons_self t ts)
        have : (q.toLower == t.toLower) = false := by
          by_contra hne
          have : q.toLower = t.toLower := by
            cases hb : (q.toLower == t.toLower) with
            | true => exact beq_iff_eq.mp hb
            | false => exact absurd hb hne
          unfold classFROM at hql htc
          rw [this] at hql
          rw [hql] at htc
          exact Bool.true_eq_false.mp htc
        simp [ciStarts, this]
      · have := ih ts ⟨q, hq, hql⟩ (fun t' ht' => ht t' (List.mem_cons_of_mem t ht'))
        simp [ciStarts, this]

/-- The whole-word test fails everywhere in a clause free of f/r/o/m letters
when the pattern contains one. -/
theorem wordTestGo_false (pat : List Char) (hp : ∃ p ∈ pat, classFROM p = true) :
    ∀ text prev, (∀ t ∈ text, classFROM t = false) →
    wordTestGo pat prev text = false := by
  intro text
  induction text with
  | nil =>
    intro prev _
    have : ciStarts pat [] = false := ciStarts_false_of_clean pat [] hp (by simp)
    unfold wordTestGo
    simp [this]
  | cons c cs ih =>
    intro prev ht
    have hci : ciStarts pat (c :: cs) = false :=
      ciStarts_false_of_clean pat (c :: cs) hp ht
    unfold wordTestGo
    rw [hci]
    simp only [Bool.and_false, Bool.false_and, Bool.false_or]
    exact ih (some c) (fun t' ht' => ht t' (List.mem_cons_of_mem c ht'))

/-- Every forbidden column name contains at least one f/r/o/m letter. -/
theorem forbidden_have_class : ∀ col ∈ FORBIDDENL, ∃ p ∈ col, classFROM p = true := by
  decide

/-- No forbidden name survives the word test against a clause free of
f/r/o/m letters. -/
theorem detectFoundIn_nil (cap : List Char) (hcap : ∀ c ∈ cap, classFROM c = false) :
    detectFoundIn cap = [] := by
  apply filter_nil_of_none
  intro col hcol
  exact wordTestGo_false col (forbidden_have_class col hcol) cap none hcap

/-- The generation tool's detector reports no violation on any input:
the `[^from]` character class makes the captured SELECT clause avoid the
letters f, r, o, m, and every forbidden name contains one of them. -/
theorem detectGen_clear (sql : String) :
    containsForbiddenColumnsGen sql = ⟨false, []⟩ := by
  unfold containsForbiddenColumnsGen
  cases hf : findSF (sql.data.map Char.toLower) with
  | none => simp [hf]
  | some tr =>
    obtain ⟨pre, span, cap, rest⟩ := tr
    have hcap := (findSF_spec _ _ _ _ _ hf).2
    simp [hf, detectFoundIn_nil cap hcap]

/-- The execution tool's detector likewise reports no violation on any
input. -/
theorem detectNews_clear (sql : String) :
    containsForbiddenColumnsNews sql = ⟨false, []⟩ := by
  unfold containsForbiddenColumnsNews
  by_cases ht : newsTableTarget sql
  · simp only [ht, if_true]
    cases hf : findSF (sql.data.map Char.toLower) with
    | none => simp [hf]
    | some tr =>
      obtain ⟨pre, span, cap, rest⟩ := tr
      have hcap := (findSF_spec _ _ _ _ _ hf).2
      simp [hf, detectFoundIn_nil cap hcap]
  · simp [ht]

/-- `splitComma` never produces an empty list of pieces. -/
theorem splitComma_ne_nil : ∀ l : List Char, splitComma l ≠ [] := by
  intro l
  cases l with
  | nil => simp [splitComma]
  | cons c cs =>
    unfold splitComma
    by_cases hc : (c == ',') = true
    · simp [hc]
    · simp only [Bool.not_eq_true] at hc
      simp only [hc, Bool.false_eq_true, if_false]
      cases splitComma cs <;> simp

/-- Replacement-string expansion is the identity on dollar-free templates. -/
theorem expandRepl_self (m p s : List Char) :
    ∀ l : List Char, (∀ c ∈ l, (c == dollarChar) = false) →
    expandRepl m p s l = l := by
  intro l
  induction l with
  | nil => intro _; rfl
  | cons c t ih =>
    intro h
    cases t with
    | nil => rfl
    | cons d t2 =>
      have hc := h c (List.mem_cons_self c (d :: t2))
      unfold expandRepl
      simp only [hc, Bool.false_eq_true, if_false]
      have := ih (fun x hx => h x (List.mem_cons_of_mem c hx))
      rw [this]

/-! ## The claims -/

/-- C1.  The spec's worked example fails on the code: for the input
`SELECT id, title, content FROM articles ORDER BY published_at DESC LIMIT 10`
the detector (either copy) reports no forbidden column and the rewriter
returns the query unchanged, because the regex
`/select\s+([^from]+?)\s+from/i` treats `[^from]` as a character class and
therefore can never capture a projection containing the letter `o` of
`content` (the capture here would have to cross `c-o-n-t-e-n-t`).  The claim
— `forbiddenColumns = ["content"]` and the rewrite dropping `content` — is
the evident intent of the code's own comments, so this is a code bug. -/
theorem claim1_example_not_detected :
    containsForbiddenColumnsGen
        "SELECT id, title, content FROM articles ORDER BY published_at DESC LIMIT 10" =
      ⟨false, []⟩ ∧
    containsForbiddenColumnsNews
        "SELECT id, title, content FROM articles ORDER BY published_at DESC LIMIT 10" =
      ⟨false, []⟩ ∧
    sanitizeSQLGen
        "SELECT id, title, content FROM articles ORDER BY published_at DESC LIMIT 10" =
      "SELECT id, title, content FROM articles ORDER BY published_at DESC LIMIT 10" ∧
    sanitizeSQLGen
        "SELECT id, title, content FROM articles ORDER BY published_at DESC LIMIT 10" ≠
      "SELECT id, title FROM articles ORDER BY published_at DESC LIMIT 10" := by
  decide

/-- C2.  For every input string, both copies of `containsForbiddenColumns`
report `hasForbidden = false` with an empty `forbiddenColumns` list: the
capture of `([^from]+?)` excludes the letters f, r, o, m (case-insensitively)
and each forbidden name contains at least one of them, so the word-boundary
test can never succeed inside a captured clause. -/
theorem claim2_detector_never_flags (sql : String) :
    containsForbiddenColumnsGen sql = ⟨false, []⟩ ∧
    containsForbiddenColumnsNews sql = ⟨false, []⟩ :=
  ⟨detectGen_clear sql, detectNews_clear sql⟩

/-- C3 counterexample.  The claim says the Execution Gate never raises, on
every failure including missing configuration; but with no connection string
and no `NEWS_DATABASE_URL` the `throw` sits before the `try`, so `execute`
raises (models as `Except.error`) instead of returning a tagged result. -/
theorem claim3_missing_config_raises :
    sqlExecutionToolExecute none none "SELECT id FROM news" (Except.ok ())
        (fun _ => Except.ok []) =
      (Except.error "No connection string provided and NEWS_DATABASE_URL is not set in environment variables",
       []) := rfl

/-- C3 as amended.  Once a database URL is resolvable, the Execution Gate
never raises: whatever the connect outcome, the statement type and the
database behaviour, it returns a tagged result, and any failure carries an
error message. -/
theorem claim3_tagged_failure (connStr envUrl : Option String) (query : String)
    (cr : Except String Unit) (dbRun : String → Except String (List String))
    (h : truthyStr (resolveDbUrl connStr envUrl) = true) :
    ∃ r : ExecResult,
      (sqlExecutionToolExecute connStr envUrl query cr dbRun).fst = Except.ok r ∧
      (r.success = false → r.error.isSome = true) := by
  unfold sqlExecutionToolExecute
  cases cr with
  | error e =>
    refine ⟨{ success := false, data := [], rowCount := 0, executedQuery := query,
              warning := none, error := some e }, ?_, ?_⟩
    · simp [h]
    · intro _; rfl
  | ok u =>
    cases u
    by_cases hs : statementAllowed query = true
    · have hv := detectNews_clear query
      cases hdb : dbRun query with
      | ok rows =>
        refine ⟨{ success := true, data := rows, rowCount := rows.length,
                  executedQuery := query, warning := none, error := none }, ?_, ?_⟩
        · simp [h, hs, hv, hdb]
        · intro hfalse; exact absurd hfalse (by simp)
      | error e =>
        refine ⟨{ success := false, data := [], rowCount := 0, executedQuery := query,
                  warning := none, error := some ("Failed to execute query: " ++ e) }, ?_, ?_⟩
        · simp [h, hs, hv, hdb]
        · intro _; rfl
    · simp only [Bool.not_eq_true] at hs
      refine ⟨{ success := false, data := [], rowCount := 0, executedQuery := query,
                warning := none,
                error := some "Only SELECT queries are allowed for security reasons" }, ?_, ?_⟩
      · simp [h, hs]
      · intro _; rfl

/-- C3 witness. -/
theorem claim3_tagged_failure_witness :
    ∃ r : ExecResult,
      (sqlExecutionToolExecute (some "postgres://db") none "SELECT id FROM news"
          (Except.ok ()) (fun _ => Except.ok [])).fst = Except.ok r ∧
      (r.success = false → r.error.isSome = true) :=
  claim3_tagged_failure (some "postgres://db") none "SELECT id FROM news"
    (Except.ok ()) (fun _ => Except.ok []) (by decide)

/-- C4.  In every result the Execution Gate returns (success or failure),
`executedQuery` equals the query actually submitted to the database when one
was submitted, and the original query when nothing was submitted. -/
theorem claim4_executed_query_accurate (connStr envUrl : Option String)
    (query : String) (cr : Except String Unit)
    (dbRun : String → Except String (List String))
    (r : ExecResult) (evs : List Ev)
    (h : sqlExecutionToolExecute connStr envUrl query cr dbRun = (Except.ok r, evs)) :
    (∀ q, Ev.submit q ∈ evs → r.executedQuery = q) ∧
    ((∀ q, Ev.submit q ∉ evs) → r.executedQuery = query) := by
  unfold sqlExecutionToolExecute at h
  by_cases hu : truthyStr (resolveDbUrl connStr envUrl) = true
  · simp only [hu, if_true] at h
    cases cr with
    | error e =>
      simp only [Prod.mk.injEq, Except.ok.injEq] at h
      obtain ⟨h1, h2⟩ := h
      subst h1; subst h2
      constructor
      · intro q hq; simp at hq
      · intro _; rfl
    | ok u =>
      cases u
      by_cases hs : statementAllowed query = true
      · rw [detectNews_clear query] at h
        simp only [hs, if_true, Bool.false_eq_true, if_false] at h
        cases hdb : dbRun query with
        | ok rows =>
          rw [hdb] at h
          simp only [Prod.mk.injEq, Except.ok.injEq] at h
          obtain ⟨h1, h2⟩ := h
          subst h1; subst h2
          constructor
          · intro q hq
            simp only [List.mem_cons, List.not_mem_nil, or_false] at hq
            rcases hq with hq | hq | hq
            · exact absurd hq (by simp)
            · have := (Ev.submit.injEq .. ).mp hq.symm
              simp [this]
            · exact absurd hq (by simp)
          · intro _; rfl
        | error e =>
          rw [hdb] at h
          simp only [Prod.mk.injEq, Except.ok.injEq] at h
          obtain ⟨h1, h2⟩ := h
          subst h1; subst h2
          constructor
          · intro q hq
            simp only [List.mem_cons, List.not_mem_nil, or_false] at hq
            rcases hq with hq | hq | hq
            · exact absurd hq (by simp)
            · have := (Ev.submit.injEq .. ).mp hq.symm
              simp [this]
            · exact absurd hq (by simp)
          · intro _; rfl
      · simp only [Bool.not_eq_true] at hs
        simp only [hs, Bool.false_eq_true, if_false] at h
        simp only [Prod.mk.injEq, Except.ok.injEq] at h
        obtain ⟨h1, h2⟩ := h
        subst h1; subst h2
        constructor
        · intro q hq; simp at hq
        · intro _; rfl
  · simp only [Bool.not_eq_true] at hu
    simp only [hu, Bool.false_eq_true, if_false] at h
    exact absurd h (by simp)

/-- C4 witness. -/
theorem claim4_executed_query_witness :
    (∀ q, Ev.submit q ∈ [Ev.connect, Ev.submit "SELECT id FROM x", Ev.disconnect] →
      (ExecResult.mk true [] 0 "SELECT id FROM x" none none).executedQuery = q) ∧
    ((∀ q, Ev.submit q ∉ [Ev.connect, Ev.submit "SELECT id FROM x", Ev.disconnect]) →
      (ExecResult.mk true [] 0 "SELECT id FROM x" none none).executedQuery = "SELECT id FROM x") :=
  claim4_executed_query_accurate (some "u") none "SELECT id FROM x" (Except.ok ())
    (fun _ => Except.ok []) (ExecResult.mk true [] 0 "SELECT id FROM x" none none)
    [Ev.connect, Ev.submit "SELECT id FROM x", Ev.disconnect] rfl

/-- C5 counterexample.  The claim says a non-SELECT input is rejected
"before any I/O occurs", but the source calls `client.connect()` before the
statement-type check: the event trace of the rejected `UPDATE` contains the
connect (and the disconnect of the `finally`) before the failure is
returned. -/
theorem claim5_connect_io_precedes_rejection :
    sqlExecutionToolExecute (some "postgres://db") none "UPDATE news SET a = 1"
        (Except.ok ()) (fun _ => Except.ok []) =
      (Except.ok { success := false, data := [], rowCount := 0,
                   executedQuery := "UPDATE news SET a = 1", warning := none,
                   error := some "Only SELECT queries are allowed for security reasons" },
       [Ev.connect, Ev.disconnect]) := rfl

/-- C5 as amended.  Every input whose trimmed, lowercased text does not
start with `select` is rejected without reaching detection, rewriting, or
query execution (no query is ever submitted), but only after the connection
attempt: when configuration resolves and the connect succeeds, the result is
the statement-type failure. -/
theorem claim5_nonselect_rejected (connStr envUrl : Option String) (query : String)
    (cr : Except String Unit) (dbRun : String → Except String (List String))
    (hsel : statementAllowed query = false) :
    (∀ q, Ev.submit q ∉ (sqlExecutionToolExecute connStr envUrl query cr dbRun).snd) ∧
    (truthyStr (resolveDbUrl connStr envUrl) = true → cr = Except.ok () →
      (sqlExecutionToolExecute connStr envUrl query cr dbRun).fst =
        Except.ok { success := false, data := [], rowCount := 0, executedQuery := query,
                    warning := none,
                    error := some "Only SELECT queries are allowed for security reasons" }) := by
  constructor
  · intro q
    unfold sqlExecutionToolExecute
    by_cases hu : truthyStr (resolveDbUrl connStr envUrl) = true
    · simp only [hu, if_true]
      cases cr with
      | error e => simp
      | ok u => cases u; simp [hsel]
    · simp only [Bool.not_eq_true] at hu
      simp [hu]
  · intro hu hcr
    subst hcr
    unfold sqlExecutionToolExecute
    simp [hu, hsel]

/-- C5 witness. -/
theorem claim5_nonselect_rejected_witness :
    (∀ q, Ev.submit q ∉ (sqlExecutionToolExecute (some "postgres://db") none
        "DELETE FROM news" (Except.ok ()) (fun _ => Except.ok [])).snd) ∧
    (truthyStr (resolveDbUrl (some "postgres://db") none) = true →
      (Except.ok () : Except String Unit) = Except.ok () →
      (sqlExecutionToolExecute (some "postgres://db") none "DELETE FROM news"
          (Except.ok ()) (fun _ => Except.ok [])).fst =
        Except.ok { success := false, data := [], rowCount := 0,
                    executedQuery := "DELETE FROM news", warning := none,
                    error := some "Only SELECT queries are allowed for security reasons" }) :=
  claim5_nonselect_rejected (some "postgres://db") none "DELETE FROM news"
    (Except.ok ()) (fun _ => Except.ok []) (by decide)

/-- C6.  The spec's fallback example fails on the code: rewriting
`SELECT content, body FROM articles` returns the input unchanged instead of
substituting the allowed-columns fallback, because the `[^from]` capture can
never contain `content` or `body` (both contain an o), so the regex does not
match at all and — for the same reason — the `sanitizedColumns.length === 0`
fallback branch is unreachable on every input.  The fallback behaviour is
the evident intent of the code (its comment says "If all columns were
removed, add allowed columns as fallback"), so this is a code bug. -/
theorem claim6_fallback_never_substituted :
    sanitizeSQLNews "SELECT content, body FROM articles" =
      "SELECT content, body FROM articles" ∧
    sanitizeSQLGen "SELECT content, body FROM articles" =
      "SELECT content, body FROM articles" ∧
    sanitizeSQLNews "SELECT content, body FROM articles" ≠
      "SELECT id, title, slug, symbol, url, published_at FROM articles" := by
  decide

/-- C7 counterexample.  `select id from t` already satisfies the column
policy (its projection is just `id`, and the detector reports no violation),
yet the rewriter does not return it unchanged: the `replace` rebuilds the
matched span as `SELECT id FROM`, uppercasing the keywords. -/
theorem claim7_rewrite_not_identity :
    (containsForbiddenColumnsNews "select id from t").hasForbidden = false ∧
    sanitizeSQLNews "select id from t" = "SELECT id FROM t" ∧
    sanitizeSQLNews "select id from t" ≠ "select id from t" := by
  decide

/-- C7 as amended.  Rewriting is the identity exactly on queries whose first
`SELECT ... FROM` span is already in the rewriter's canonical output form:
`SELECT` and `FROM` uppercase, the kept column expressions trimmed and
joined by comma-space, no dollar character in the span.  (Compliance is the
filter's own test; keyword case or spacing differences make the rewrite
change a compliant query, as the counterexample shows.) -/
theorem claim7_identity_on_canonical (q : String) (pre span cap rest : List Char)
    (hf : findSF q.data = some (pre, span, cap, rest))
    (hkeep : ∀ col ∈ (splitComma cap).map jsTrimList,
      FORBIDDENL.contains (normalizeCol col) = false)
    (hspan : ("SELECT ".data) ++
        (List.intercalate (", ".data) ((splitComma cap).map jsTrimList)) ++
        (" FROM".data) = span)
    (hnd : ∀ c ∈ span, (c == dollarChar) = false) :
    sanitizeSQLNews q = q := by
  have hdec := (findSF_spec _ _ _ _ _ hf).1
  have htmpl : sanitizeTemplate ALLOWED_COLUMNS_NEWS cap = span := by
    have hall : ((splitComma cap).map jsTrimList).filter
        (fun col => !(FORBIDDENL.contains (normalizeCol col))) =
        (splitComma cap).map jsTrimList := by
      apply filter_self_of_all
      intro col hcol
      simp only [hkeep col hcol, Bool.not_false]
    have hne : ((splitComma cap).map jsTrimList).isEmpty = false := by
      cases hm : (splitComma cap).map jsTrimList with
      | nil => exact absurd (List.map_eq_nil_iff.mp hm) (splitComma_ne_nil cap)
      | cons a t => rfl
    simp only [sanitizeTemplate]
    rw [hall, hne]
    simp only [Bool.false_eq_true, if_false]
    exact hspan
  calc sanitizeSQLNews q
      = String.mk (pre ++ expandRepl span pre rest
          (sanitizeTemplate ALLOWED_COLUMNS_NEWS cap) ++ rest) := by
        unfold sanitizeSQLNews sanitizeCore
        rw [hf]
    _ = String.mk (pre ++ span ++ rest) := by
        rw [htmpl, expandRepl_self _ _ _ _ hnd]
    _ = q := by rw [← hdec, string_mk_data]

/-- C7 witness. -/
theorem claim7_identity_witness :
    sanitizeSQLNews "SELECT id, title FROM articles LIMIT 10" =
      "SELECT id, title FROM articles LIMIT 10" :=
  claim7_identity_on_canonical "SELECT id, title FROM articles LIMIT 10"
    [] ("SELECT id, title FROM".data) ("id, title".data) (" articles LIMIT 10".data)
    (by decide) (by decide) (by decide) (by decide)

/-- C8.  Closure of rewriting under detection: for any query targeting the
guarded table, running the detector on the rewriter's output reports no
violation.  (This holds for the degenerate reason established for C2: the
detector reports no violation on any string whatsoever.) -/
theorem claim8_rewrite_closed_under_detection (q : String)
    (_h : newsTableTarget q = true) :
    (containsForbiddenColumnsNews (sanitizeSQLNews q)).hasForbidden = false := by
  rw [detectNews_clear]

/-- C8 witness. -/
theorem claim8_closure_witness :
    (containsForbiddenColumnsNews (sanitizeSQLNews "SELECT id FROM news")).hasForbidden =
      false :=
  claim8_rewrite_closed_under_detection "SELECT id FROM news" (by decide)

/-- C9.  Fail-open on unparseable input: when the `select ... from` regex
does not match (the extraction the detector and rewriter share), both
detectors report no violation and both rewriters return the input
unchanged. -/
theorem claim9_fail_open (q : String) (h : findSF q.data = none) :
    (containsForbiddenColumnsNews q).hasForbidden = false ∧
    (containsForbiddenColumnsGen q).hasForbidden = false ∧
    sanitizeSQLNews q = q ∧ sanitizeSQLGen q = q := by
  refine ⟨by rw [detectNews_clear], by rw [detectGen_clear], ?_, ?_⟩
  · unfold sanitizeSQLNews sanitizeCore
    rw [h]
  · unfold sanitizeSQLGen sanitizeCore
    rw [h]

/-- C9 witness. -/
theorem claim9_fail_open_witness :
    (containsForbiddenColumnsNews "UPDATE news SET a = 1").hasForbidden = false ∧
    (containsForbiddenColumnsGen "UPDATE news SET a = 1").hasForbidden = false ∧
    sanitizeSQLNews "UPDATE news SET a = 1" = "UPDATE news SET a = 1" ∧
    sanitizeSQLGen "UPDATE news SET a = 1" = "UPDATE news SET a = 1" :=
  claim9_fail_open "UPDATE news SET a = 1" (by decide)

/-- C10 counterexample.  For a query with `WHERE`, `ORDER BY` and `LIMIT`
clauses, rewriting leaves everything outside the first `SELECT ... FROM`
span byte-identical, but it is not true that "only the SELECT projection
list changes": here the projection (`id`) is unchanged while the `select`
and `from` keywords are rewritten uppercase, so the output differs from the
input even though the claim implies it would be equal. -/
theorem claim10_keywords_also_change :
    sanitizeSQLNews "select id from t WHERE a = 1 ORDER BY b LIMIT 2" =
      "SELECT id FROM t WHERE a = 1 ORDER BY b LIMIT 2" ∧
    sanitizeSQLNews "select id from t WHERE a = 1 ORDER BY b LIMIT 2" ≠
      "select id from t WHERE a = 1 ORDER BY b LIMIT 2" := by
  decide

/-- C10 as amended.  Frame property: whenever the rewriter's regex matches,
the input decomposes as `before ++ span ++ rest` around the first
`SELECT ... FROM` span, and the output is exactly `before` and `rest`
byte-identical with the span replaced by the expanded
`SELECT <kept-or-fallback columns> FROM` template (keyword case and spacing
inside the span are normalised; everything outside the span is untouched). -/
theorem claim10_frame (q : String) (pre span cap rest : List Char)
    (hf : findSF q.data = some (pre, span, cap, rest)) :
    q = String.mk (pre ++ span ++ rest) ∧
    sanitizeSQLNews q =
      String.mk (pre ++ expandRepl span pre rest
        (sanitizeTemplate ALLOWED_COLUMNS_NEWS cap) ++ rest) := by
  constructor
  · rw [← (findSF_spec _ _ _ _ _ hf).1, string_mk_data]
  · unfold sanitizeSQLNews sanitizeCore
    rw [hf]

/-- C10 witness. -/
theorem claim10_frame_witness :
    ("SELECT id FROM news WHERE id = 1 ORDER BY id LIMIT 5" : String) =
      String.mk ([] ++ "SELECT id FROM".data ++
        " news WHERE id = 1 ORDER BY id LIMIT 5".data) ∧
    sanitizeSQLNews "SELECT id FROM news WHERE id = 1 ORDER BY id LIMIT 5" =
      String.mk ([] ++ expandRepl ("SELECT id FROM".data) []
        (" news WHERE id = 1 ORDER BY id LIMIT 5".data)
        (sanitizeTemplate ALLOWED_COLUMNS_NEWS ("id".data)) ++
        " news WHERE id = 1 ORDER BY id LIMIT 5".data) :=
  claim10_frame "SELECT id FROM news WHERE id = 1 ORDER BY id LIMIT 5"
    [] ("SELECT id FROM".data) ("id".data)
    (" news WHERE id = 1 ORDER BY id LIMIT 5".data) (by decide)

end SqlGuard
